import Mathlib

/-!
Shallow embedding of the portman test-injection core
(`src/application/TestSuite.ts`, `src/application/IntegrationTestWriter.ts`)
together with proofs of the specification claims.

Conventions of the embedding:
* JavaScript objects become structures; optional / possibly-`undefined`
  fields become `Option`.
* JavaScript string truthiness (`undefined` and `""` are falsy) is made
  explicit via `jsTruthyStr`.
* `Object.entries` over a JS object becomes a `List` of key/value pairs.
* In-place mutation threaded through reassignment (`pmOperation = inject(...)`)
  becomes explicit state passing / `List.foldl`.
* Helpers that live outside the two embedded files (`inRange`,
  `inOperations`, the assertion injectors, the Postman/OAS parsers and the
  clone operation) are modelled from the spec; each such definition carries
  a doc comment starting with `Modelled from the spec:`.
-/

/-- One executable test assertion attached to a Request Record.  The engine
only decides *whether* an assertion of a given kind is emitted, so each
injector is represented by its assertion kind (plus the data that selects
it, where the code branches on that data). -/
inductive TestAssertion where
  | statusSuccess : TestAssertion
  | statusCode : TestAssertion
  | responseTime : TestAssertion
  | contentTypeCheck (value : String) : TestAssertion
  | jsonBody : TestAssertion
  | jsonSchema (schema : String) : TestAssertion
  | header (headerName : String) : TestAssertion
  | bodyContent : TestAssertion
deriving DecidableEq, Repr

/-- A Request Record (`PostmanMappedOperation`): a concrete request of the
output collection.  `id` is `Option String` because the identifier may be
absent (`undefined`); the empty string models a present-but-falsy value. -/
structure PostmanMappedOperation where
  id : Option String
  name : String
  pathRef : String
  testAssertions : List TestAssertion
deriving DecidableEq, Repr

/-- A media-type entry of an OpenAPI response (`content[contentType]`);
only its `schema` presence matters to the engine.  The schema itself is
kept opaque as a `String`. -/
structure MediaTypeObject where
  schema : Option String := none
deriving DecidableEq, Repr

/-- An OpenAPI `ResponseObject`: `content` maps content types to media-type
objects, `headers` declares response header names. `Object.entries` order is
the list order. -/
structure ResponseObject where
  content : Option (List (String × MediaTypeObject)) := none
  headers : Option (List String) := none
deriving DecidableEq, Repr

/-- The schema part of an OAS operation: a mapping from response code (a
string, possibly a pattern) to response definitions. -/
structure OasOperationSchema where
  responses : Option (List (String × ResponseObject)) := none
deriving DecidableEq, Repr

/-- A Contract Operation (`OasMappedOperation`), read-only to the engine. -/
structure OasMappedOperation where
  schema : Option OasOperationSchema := none
deriving DecidableEq, Repr

/-- JS string truthiness for an optional string field: `undefined` and the
empty string are falsy. -/
def jsTruthyStr : Option String → Bool
  | some s => !(s == "")
  | none => false

/-- `Array.prototype.includes` applied to a possibly-`undefined` string:
`includes(undefined)` on a string list is `false`. -/
def listIncludesOpt (l : List String) : Option String → Bool
  | some s => l.contains s
  | none => false

/-- Decimal value of a digit sequence. -/
def digitsToNat (l : List Char) : Nat :=
  l.foldl (fun n c => 10 * n + (c.toNat - 48)) 0

/-- JS `parseInt(s)` in base 10 (over the string's character list): skip
leading whitespace, optional sign, then the longest digit prefix; `none`
models `NaN`. -/
def jsParseInt (s : String) : Option Int :=
  let cs := s.data.dropWhile Char.isWhitespace
  let signed : Bool × List Char :=
    match cs with
    | '-' :: rest => (true, rest)
    | '+' :: rest => (false, rest)
    | _ => (false, cs)
  let digits := signed.2.takeWhile Char.isDigit
  if digits.isEmpty then none
  else
    some (if signed.1 then -(digitsToNat digits : Int) else (digitsToNat digits : Int))

/-- Modelled from the spec: `inRange` (`src/utils`, not under `src/`) tests
membership in an inclusive-exclusive numeric range (lower bound inclusive,
upper bound exclusive); `NaN` (here `none`) is never in range. -/
def inRange (n : Option Int) (lo hi : Int) : Bool :=
  match n with
  | some v => lo ≤ v && v < hi
  | none => false

/-- Modelled from the spec: `inOperations` (`src/utils/inOperations.ts`, not
under `src/`) — true iff the Request Record's identifier or path reference
appears in the given exclusion list (absent list excludes nothing). -/
def inOperations (pmOperation : PostmanMappedOperation)
    (operations : Option (List String)) : Bool :=
  match operations with
  | some l => listIncludesOpt l pmOperation.id || l.contains pmOperation.pathRef
  | none => false

/-- Modelled from the spec: the assertion injectors are external pure
functions, each returning the same record with one additional assertion
appended. -/
def appendAssertion (pmOperation : PostmanMappedOperation)
    (a : TestAssertion) : PostmanMappedOperation :=
  { pmOperation with testAssertions := pmOperation.testAssertions ++ [a] }

/-- Modelled from the spec: `testResponseStatusSuccess` appends one
status-success assertion. -/
def testResponseStatusSuccess (pmOperation : PostmanMappedOperation) :
    PostmanMappedOperation :=
  appendAssertion pmOperation TestAssertion.statusSuccess

/-- Per-check configuration entry of a contract-test rule.  The code only
inspects its presence and its `excludeForOperations` list, so only that
field is modelled. -/
structure ContractCheckSetting where
  excludeForOperations : Option (List String) := none
deriving DecidableEq, Repr

/-- Modelled from the spec: `testResponseStatusCode` appends one status-code
assertion (its expected-code parameter does not influence control flow). -/
def testResponseStatusCode (_opt : ContractCheckSetting)
    (pmOperation : PostmanMappedOperation) : PostmanMappedOperation :=
  appendAssertion pmOperation TestAssertion.statusCode

/-- Modelled from the spec: `testResponseTime` appends one response-time
assertion. -/
def testResponseTime (_opt : ContractCheckSetting)
    (pmOperation : PostmanMappedOperation) : PostmanMappedOperation :=
  appendAssertion pmOperation TestAssertion.responseTime

/-- Modelled from the spec: `testResponseContentType` appends one
content-type assertion for the given content type. -/
def testResponseContentType (contentType : String)
    (pmOperation : PostmanMappedOperation) (_oa : OasMappedOperation) :
    PostmanMappedOperation :=
  appendAssertion pmOperation (TestAssertion.contentTypeCheck contentType)

/-- Modelled from the spec: `testResponseJsonBody` appends one
JSON-body-equality assertion. -/
def testResponseJsonBody (pmOperation : PostmanMappedOperation)
    (_oa : OasMappedOperation) : PostmanMappedOperation :=
  appendAssertion pmOperation TestAssertion.jsonBody

/-- Modelled from the spec: `testResponseJsonSchema` appends one
schema-validation assertion referencing the given schema. -/
def testResponseJsonSchema (schema : String)
    (pmOperation : PostmanMappedOperation) (_oa : OasMappedOperation) :
    PostmanMappedOperation :=
  appendAssertion pmOperation (TestAssertion.jsonSchema schema)

/-- Modelled from the spec: `testResponseHeader` appends one
header-presence assertion for the given header name. -/
def testResponseHeader (headerName : String)
    (pmOperation : PostmanMappedOperation) (_oa : OasMappedOperation) :
    PostmanMappedOperation :=
  appendAssertion pmOperation (TestAssertion.header headerName)

/-- A contract-test rule (`ContractTestConfig`): operation selectors, a
rule-level exclusion list, and one optional entry per check kind (presence
of the entry enables the check, exactly as the code tests
`if (optStatusSuccess ...)`). -/
structure ContractTestConfig where
  openApiOperation : Option String := none
  openApiOperationId : Option String := none
  excludeForOperations : Option (List String) := none
  statusSuccess : Option ContractCheckSetting := none
  statusCode : Option ContractCheckSetting := none
  responseTime : Option ContractCheckSetting := none
  contentType : Option ContractCheckSetting := none
  jsonBody : Option ContractCheckSetting := none
  schemaValidation : Option ContractCheckSetting := none
  headersPresent : Option ContractCheckSetting := none
deriving DecidableEq, Repr

/-- `TestSuite.getTestTypeFromContractTests`: dynamic property lookup
`contractTest[type]`, written out over the seven keys the code uses. -/
def getTestTypeFromContractTests (contractTest : ContractTestConfig)
    (type : String) : Option ContractCheckSetting :=
  if type == "statusSuccess" then contractTest.statusSuccess
  else if type == "statusCode" then contractTest.statusCode
  else if type == "responseTime" then contractTest.responseTime
  else if type == "contentType" then contractTest.contentType
  else if type == "jsonBody" then contractTest.jsonBody
  else if type == "schemaValidation" then contractTest.schemaValidation
  else if type == "headersPresent" then contractTest.headersPresent
  else none

/-- One iteration of the content-type loop of `injectContractTests`
(`TestSuite.ts` lines 200-226): skip falsy content types, then content-type
check, JSON-body check (only for `application/json`), schema check (only
when a schema is declared). -/
def processContentEntry (oaOperation : OasMappedOperation)
    (optContentType optJsonBody optSchemaValidation : Option ContractCheckSetting)
    (pmOperation : PostmanMappedOperation) (entry : String × MediaTypeObject) :
    PostmanMappedOperation :=
  let contentType := entry.1
  let content := entry.2
  if contentType == "" then pmOperation
  else
    let pm1 :=
      match optContentType with
      | some o =>
          if inOperations pmOperation o.excludeForOperations then pmOperation
          else testResponseContentType contentType pmOperation oaOperation
      | none => pmOperation
    let pm2 :=
      match optJsonBody with
      | some o =>
          if contentType == "application/json" &&
              !inOperations pm1 o.excludeForOperations then
            testResponseJsonBody pm1 oaOperation
          else pm1
      | none => pm1
    match optSchemaValidation, content.schema with
    | some o, some schema =>
        if inOperations pm2 o.excludeForOperations then pm2
        else testResponseJsonSchema schema pm2 oaOperation
    | _, _ => pm2

/-- One iteration of the response-header loop of `injectContractTests`
(`TestSuite.ts` lines 231-241). -/
def processHeaderEntry (oaOperation : OasMappedOperation)
    (optHeadersPresent : Option ContractCheckSetting)
    (pmOperation : PostmanMappedOperation) (headerName : String) :
    PostmanMappedOperation :=
  if headerName == "" then pmOperation
  else
    match optHeadersPresent with
    | some o =>
        if inOperations pmOperation o.excludeForOperations then pmOperation
        else testResponseHeader headerName pmOperation oaOperation
    | none => pmOperation

/-- Lines 182-185 of `TestSuite.ts`: the status-success check — fires when
the check entry is present and the record is not excluded for it. -/
def applyStatusSuccess (opt : Option ContractCheckSetting)
    (pmOperation : PostmanMappedOperation) : PostmanMappedOperation :=
  match opt with
  | some o =>
      if inOperations pmOperation o.excludeForOperations then pmOperation
      else testResponseStatusSuccess pmOperation
  | none => pmOperation

/-- Lines 187-190 of `TestSuite.ts`: the status-code check. -/
def applyStatusCode (opt : Option ContractCheckSetting)
    (pmOperation : PostmanMappedOperation) : PostmanMappedOperation :=
  match opt with
  | some o =>
      if inOperations pmOperation o.excludeForOperations then pmOperation
      else testResponseStatusCode o pmOperation
  | none => pmOperation

/-- Lines 192-195 of `TestSuite.ts`: the response-time check. -/
def applyResponseTime (opt : Option ContractCheckSetting)
    (pmOperation : PostmanMappedOperation) : PostmanMappedOperation :=
  match opt with
  | some o =>
      if inOperations pmOperation o.excludeForOperations then pmOperation
      else testResponseTime o pmOperation
  | none => pmOperation

/-- Lines 198-227 of `TestSuite.ts`: the content-type loop, entered only
when the response declares `content`. -/
def applyContentChecks (oaOperation : OasMappedOperation)
    (optContentType optJsonBody optSchemaValidation : Option ContractCheckSetting)
    (content : Option (List (String × MediaTypeObject)))
    (pmOperation : PostmanMappedOperation) : PostmanMappedOperation :=
  match content with
  | some entries =>
      entries.foldl
        (processContentEntry oaOperation optContentType optJsonBody optSchemaValidation)
        pmOperation
  | none => pmOperation

/-- Lines 229-242 of `TestSuite.ts`: the response-header loop, entered only
when the response declares `headers`. -/
def applyHeaderChecks (oaOperation : OasMappedOperation)
    (optHeadersPresent : Option ContractCheckSetting)
    (headers : Option (List String))
    (pmOperation : PostmanMappedOperation) : PostmanMappedOperation :=
  match headers with
  | some headerNames =>
      headerNames.foldl (processHeaderEntry oaOperation optHeadersPresent) pmOperation
  | none => pmOperation

/-- One iteration of the response loop of `injectContractTests`
(`TestSuite.ts` lines 162-243): skip responses whose parsed status code is
outside `[200, 302)`, then run the seven check kinds in source order,
threading the record through each injector. -/
def processResponse (oaOperation : OasMappedOperation)
    (contractTest : ContractTestConfig)
    (pmOperation : PostmanMappedOperation) (entry : String × ResponseObject) :
    PostmanMappedOperation :=
  if !inRange (jsParseInt entry.1) 200 302 then pmOperation
  else
    applyHeaderChecks oaOperation
      (getTestTypeFromContractTests contractTest "headersPresent") entry.2.headers
      (applyContentChecks oaOperation
        (getTestTypeFromContractTests contractTest "contentType")
        (getTestTypeFromContractTests contractTest "jsonBody")
        (getTestTypeFromContractTests contractTest "schemaValidation") entry.2.content
        (applyResponseTime (getTestTypeFromContractTests contractTest "responseTime")
          (applyStatusCode (getTestTypeFromContractTests contractTest "statusCode")
            (applyStatusSuccess
              (getTestTypeFromContractTests contractTest "statusSuccess") pmOperation))))

/-- `TestSuite.injectContractTests` (`TestSuite.ts` lines 153-245): early
exit when the contract operation declares no responses, otherwise fold the
response loop over all declared responses. -/
def injectContractTests (pmOperation : PostmanMappedOperation)
    (oaOperation : OasMappedOperation) (contractTest : ContractTestConfig) :
    PostmanMappedOperation :=
  match oaOperation.schema.bind (fun s => s.responses) with
  | none => pmOperation
  | some responses =>
      responses.foldl (processResponse oaOperation contractTest) pmOperation

/-- The operation-selector fields shared by every rule kind accepted by
`TestSuite.getOperationsFromSetting`. -/
structure RuleSetting where
  openApiOperation : Option String := none
  openApiOperationId : Option String := none
  excludeForOperations : Option (List String) := none
deriving DecidableEq, Repr

/-- Modelled from the spec: the parsed request collection
(`PostmanParser`, external) exposes lookups by path, by identifiers and by
a single identifier, plus the full ordered sequence of mapped operations. -/
structure PostmanParserModel where
  getOperationsByPath : String → List PostmanMappedOperation
  getOperationsByIds : List String → List PostmanMappedOperation
  getOperationById : String → Option PostmanMappedOperation
  mappedOperations : List PostmanMappedOperation

/-- `TestSuite.getOperationsFromSetting` (`TestSuite.ts` lines 114-144):
resolve by explicit path reference when the field is truthy, else by
declared operation identifier, else the empty list; when an
`excludeForOperations` list is present (a JS array is truthy even when
empty), keep only records with a truthy identifier that appears in the
list neither by identifier nor by path reference. -/
def getOperationsFromSetting (parser : PostmanParserModel)
    (settings : RuleSetting) : List PostmanMappedOperation :=
  let pmOperations : List PostmanMappedOperation :=
    if jsTruthyStr settings.openApiOperation then
      parser.getOperationsByPath (settings.openApiOperation.getD "")
    else if jsTruthyStr settings.openApiOperationId then
      parser.getOperationsByIds [settings.openApiOperationId.getD ""]
    else []
  match settings.excludeForOperations with
  | some excludedOperations =>
      pmOperations.filter (fun pmOperation =>
        jsTruthyStr pmOperation.id &&
        !listIncludesOpt excludedOperations pmOperation.id &&
        !excludedOperations.contains pmOperation.pathRef)
  | none => pmOperations

/-- A content-test rule (`ContentTestConfig`): operation selectors plus the
optional list of response-body tests (kept opaque). -/
structure ContentTestConfig where
  openApiOperation : Option String := none
  openApiOperationId : Option String := none
  excludeForOperations : Option (List String) := none
  responseBodyTests : Option (List String) := none
deriving DecidableEq, Repr

/-- The selector part of a content-test rule. -/
def ContentTestConfig.toSetting (c : ContentTestConfig) : RuleSetting :=
  { openApiOperation := c.openApiOperation,
    openApiOperationId := c.openApiOperationId,
    excludeForOperations := c.excludeForOperations }

/-- The slice of `TestSuite` state that `injectContentTests` reads:
the parser and the instance-held `contentTests` configuration
(`undefined` when the config has no tests section or no content tests). -/
structure TestSuiteModel where
  postmanParser : PostmanParserModel
  contentTests : Option (List ContentTestConfig) := none

/-- JS object identity, approximated structurally: in the source the
resolved operations alias entries of `mappedOperations`, so the in-place
mutation performed by `testResponseBodyContent` is modelled as an update of
the matching entries (matched by identifier and path reference). -/
def sameRecordRef (a b : PostmanMappedOperation) : Bool :=
  a.id == b.id && a.pathRef == b.pathRef

/-- `TestSuite.injectContentTests` (`TestSuite.ts` lines 247-268): when the
instance holds no content tests, return the parser's mapped operations
unchanged regardless of the arguments; otherwise use the caller-supplied
tests when given (JS `||`), resolve the target operations per test, and
apply `testResponseBodyContent` (modelled from the spec as appending one
response-body-content assertion) to each target whose test carries
`responseBodyTests`. -/
def injectContentTests (ts : TestSuiteModel)
    (pmOperationsArg : Option (List PostmanMappedOperation))
    (contentTestsArg : Option (List ContentTestConfig)) :
    List PostmanMappedOperation :=
  match ts.contentTests with
  | none => ts.postmanParser.mappedOperations
  | some ownTests =>
      let tests := contentTestsArg.getD ownTests
      tests.foldl (fun mapped contentTest =>
        let operations := pmOperationsArg.getD
          (getOperationsFromSetting ts.postmanParser contentTest.toSetting)
        match contentTest.responseBodyTests with
        | some _ =>
            mapped.map (fun op =>
              if operations.any (fun target => sameRecordRef target op) then
                appendAssertion op TestAssertion.bodyContent
              else op)
        | none => mapped) ts.postmanParser.mappedOperations

/-- One named variation of an integration step; its mutation payload is
irrelevant to the embedded control flow and kept opaque. -/
structure VariationConfig where
  name : String
  payload : Option String := none
deriving DecidableEq, Repr

/-- One step of an integration scenario: a source operation identifier and
the variations to expand for it. -/
structure IntegrationOperation where
  openApiOperationId : String
  variations : List VariationConfig
deriving DecidableEq, Repr

/-- An integration scenario (`IntegrationTestConfig`): a name plus ordered
steps. -/
structure IntegrationTestConfig where
  name : String
  operations : List IntegrationOperation
deriving DecidableEq, Repr

/-- Modelled from the spec: `pmOperation.clone({ newId, name })`
(postman-collection, external) deep-copies the record, replacing its
identifier and display name. -/
def cloneOperation (pmOperation : PostmanMappedOperation) (newId : String)
    (newName : String) : PostmanMappedOperation :=
  { pmOperation with id := some newId, name := newName }

/-- One step of `IntegrationTestWriter.add`
(`IntegrationTestWriter.ts` lines 33-51): resolve the single Request Record
by operation identifier (an unresolvable identifier skips the step), then
for each variation draw one value from the `Math.random` oracle stream,
clone the record under id `name-draw`, run `injectVariations` (external:
kept as the parameter `inject`) and append the clone to the accumulated
variation folder. -/
def integrationAddStep (parser : PostmanParserModel)
    (oasLookup : String → Option OasMappedOperation)
    (inject : PostmanMappedOperation → Option OasMappedOperation →
      VariationConfig → PostmanMappedOperation)
    (acc : List PostmanMappedOperation × List String)
    (op : IntegrationOperation) :
    List PostmanMappedOperation × List String :=
  match parser.getOperationById op.openApiOperationId with
  | none => acc
  | some pmOperation =>
      let oaOperation := oasLookup pmOperation.pathRef
      op.variations.foldl (fun state variation =>
        let operationVariation := cloneOperation pmOperation
          (variation.name ++ "-" ++ state.2.headD "") variation.name
        (state.1 ++ [inject operationVariation oaOperation variation],
         state.2.tail)) acc

/-- `IntegrationTestWriter.add` restricted to its observable output: the
ordered list of cloned-and-injected records accumulated into the scenario's
variation folder.  `rng` is the oracle stream of stringified `Math.random`
draws, consumed one per clone. -/
def integrationAdd (parser : PostmanParserModel)
    (oasLookup : String → Option OasMappedOperation)
    (inject : PostmanMappedOperation → Option OasMappedOperation →
      VariationConfig → PostmanMappedOperation)
    (integrationTest : IntegrationTestConfig) (rng : List String) :
    List PostmanMappedOperation :=
  (integrationTest.operations.foldl
    (integrationAddStep parser oasLookup inject) ([], rng)).1

/-- Number of assertions of a given kind (selected by `p`) in a list. -/
def countA (p : TestAssertion → Bool) (l : List TestAssertion) : Nat :=
  (l.filter p).length

def isStatusSuccessA : TestAssertion → Bool
  | TestAssertion.statusSuccess => true
  | _ => false

def isStatusCodeA : TestAssertion → Bool
  | TestAssertion.statusCode => true
  | _ => false

def isResponseTimeA : TestAssertion → Bool
  | TestAssertion.responseTime => true
  | _ => false

def isContentTypeA : TestAssertion → Bool
  | TestAssertion.contentTypeCheck _ => true
  | _ => false

def isJsonBodyA : TestAssertion → Bool
  | TestAssertion.jsonBody => true
  | _ => false

def isJsonSchemaA : TestAssertion → Bool
  | TestAssertion.jsonSchema _ => true
  | _ => false

def isHeaderA : TestAssertion → Bool
  | TestAssertion.header _ => true
  | _ => false

@[simp] theorem countA_nil (p : TestAssertion → Bool) : countA p [] = 0 := rfl

@[simp] theorem countA_append (p : TestAssertion → Bool) (l1 l2 : List TestAssertion) :
    countA p (l1 ++ l2) = countA p l1 + countA p l2 := by
  simp [countA, List.filter_append]

@[simp] theorem countA_cons (p : TestAssertion → Bool) (a : TestAssertion)
    (l : List TestAssertion) :
    countA p (a :: l) = (if p a then 1 else 0) + countA p l := by
  simp [countA, List.filter_cons]
  split <;> simp
  omega

/-- The record grows append-only: identifier, name and path reference are
unchanged and the assertion sequence is extended at the end. -/
def appendsOnly (pm pm' : PostmanMappedOperation) : Prop :=
  pm'.id = pm.id ∧ pm'.name = pm.name ∧ pm'.pathRef = pm.pathRef ∧
  ∃ l, pm'.testAssertions = pm.testAssertions ++ l

theorem appendsOnly_refl (pm : PostmanMappedOperation) : appendsOnly pm pm :=
  ⟨rfl, rfl, rfl, [], by simp⟩

theorem appendsOnly_trans {pm1 pm2 pm3 : PostmanMappedOperation}
    (h12 : appendsOnly pm1 pm2) (h23 : appendsOnly pm2 pm3) :
    appendsOnly pm1 pm3 := by
  obtain ⟨hi, hn, hp, l, hl⟩ := h12
  obtain ⟨hi2, hn2, hp2, l2, hl2⟩ := h23
  exact ⟨hi2.trans hi, hn2.trans hn, hp2.trans hp, l ++ l2, by
    rw [hl2, hl, List.append_assoc]⟩

theorem appendsOnly_appendAssertion (pm : PostmanMappedOperation) (a : TestAssertion) :
    appendsOnly pm (appendAssertion pm a) :=
  ⟨rfl, rfl, rfl, [a], rfl⟩

theorem inOperations_congr {pm pm' : PostmanMappedOperation}
    (hid : pm'.id = pm.id) (hpath : pm'.pathRef = pm.pathRef)
    (ops : Option (List String)) :
    inOperations pm' ops = inOperations pm ops := by
  unfold inOperations
  rw [hid, hpath]

/-- `inOperations` ignores the assertion component of the record. -/
@[simp] theorem inOperations_mk (i : Option String) (n pa : String)
    (l : List TestAssertion) (ops : Option (List String)) :
    inOperations (PostmanMappedOperation.mk i n pa l) ops
      = inOperations (PostmanMappedOperation.mk i n pa []) ops := rfl

/-- Predicted number of content-type assertions one content entry adds. -/
def ctEntryIncr (opt : Option ContractCheckSetting)
    (pm : PostmanMappedOperation) (contentType : String) : Nat :=
  if contentType == "" then 0
  else
    match opt with
    | some o => if inOperations pm o.excludeForOperations then 0 else 1
    | none => 0

/-- Predicted number of JSON-body-equality assertions one content entry
adds: only for the exact JSON media type. -/
def jbEntryIncr (opt : Option ContractCheckSetting)
    (pm : PostmanMappedOperation) (contentType : String) : Nat :=
  if contentType == "" then 0
  else
    match opt with
    | some o =>
        if contentType == "application/json" &&
            !inOperations pm o.excludeForOperations then 1 else 0
    | none => 0

/-- Predicted number of schema-validation assertions one content entry
adds: only when the entry declares a schema. -/
def svEntryIncr (opt : Option ContractCheckSetting)
    (pm : PostmanMappedOperation) (contentType : String)
    (m : MediaTypeObject) : Nat :=
  if contentType == "" then 0
  else
    match opt, m.schema with
    | some o, some _ => if inOperations pm o.excludeForOperations then 0 else 1
    | _, _ => 0

/-- Exact per-kind effect of one iteration of the content-type loop. -/
theorem processContentEntry_counts (oa : OasMappedOperation)
    (oCT oJB oSV : Option ContractCheckSetting)
    (pm : PostmanMappedOperation) (t : String) (m : MediaTypeObject) :
    countA isStatusSuccessA (processContentEntry oa oCT oJB oSV pm (t, m)).testAssertions
        = countA isStatusSuccessA pm.testAssertions ∧
    countA isStatusCodeA (processContentEntry oa oCT oJB oSV pm (t, m)).testAssertions
        = countA isStatusCodeA pm.testAssertions ∧
    countA isResponseTimeA (processContentEntry oa oCT oJB oSV pm (t, m)).testAssertions
        = countA isResponseTimeA pm.testAssertions ∧
    countA isContentTypeA (processContentEntry oa oCT oJB oSV pm (t, m)).testAssertions
        = countA isContentTypeA pm.testAssertions + ctEntryIncr oCT pm t ∧
    countA isJsonBodyA (processContentEntry oa oCT oJB oSV pm (t, m)).testAssertions
        = countA isJsonBodyA pm.testAssertions + jbEntryIncr oJB pm t ∧
    countA isJsonSchemaA (processContentEntry oa oCT oJB oSV pm (t, m)).testAssertions
        = countA isJsonSchemaA pm.testAssertions + svEntryIncr oSV pm t m := by
  rcases pm with ⟨pid, pname, ppath, passerts⟩
  rcases m with ⟨msch⟩
  rcases oCT with _ | oCT <;> rcases oJB with _ | oJB <;> rcases oSV with _ | oSV <;>
    rcases msch with _ | msch <;>
    simp only [processContentEntry, testResponseContentType, testResponseJsonBody,
      testResponseJsonSchema, appendAssertion, ctEntryIncr, jbEntryIncr, svEntryIncr,
      inOperations_mk] <;>
    repeat' split
  all_goals
    simp_all [countA, isStatusSuccessA, isStatusCodeA, isResponseTimeA,
      isContentTypeA, isJsonBodyA, isJsonSchemaA, List.filter_append]

/-- One iteration of the header loop adds only header-presence assertions:
all six other kind counts are unchanged. -/
theorem processHeaderEntry_counts (oa : OasMappedOperation)
    (oHP : Option ContractCheckSetting) (pm : PostmanMappedOperation)
    (h : String) :
    countA isStatusSuccessA (processHeaderEntry oa oHP pm h).testAssertions
        = countA isStatusSuccessA pm.testAssertions ∧
    countA isStatusCodeA (processHeaderEntry oa oHP pm h).testAssertions
        = countA isStatusCodeA pm.testAssertions ∧
    countA isResponseTimeA (processHeaderEntry oa oHP pm h).testAssertions
        = countA isResponseTimeA pm.testAssertions := by
  rcases pm with ⟨pid, pname, ppath, passerts⟩
  rcases oHP with _ | oHP <;>
    simp only [processHeaderEntry, testResponseHeader, appendAssertion,
      inOperations_mk] <;>
    repeat' split
  all_goals
    simp_all [countA, isStatusSuccessA, isStatusCodeA, isResponseTimeA,
      List.filter_append]

/-- The content-type loop leaves the status-success, status-code and
response-time counts unchanged. -/
theorem contentFold_simple_counts (oa : OasMappedOperation)
    (oCT oJB oSV : Option ContractCheckSetting)
    (entries : List (String × MediaTypeObject)) :
    ∀ pm : PostmanMappedOperation,
    countA isStatusSuccessA
        ((entries.foldl (processContentEntry oa oCT oJB oSV) pm).testAssertions)
        = countA isStatusSuccessA pm.testAssertions ∧
    countA isStatusCodeA
        ((entries.foldl (processContentEntry oa oCT oJB oSV) pm).testAssertions)
        = countA isStatusCodeA pm.testAssertions ∧
    countA isResponseTimeA
        ((entries.foldl (processContentEntry oa oCT oJB oSV) pm).testAssertions)
        = countA isResponseTimeA pm.testAssertions := by
  induction entries with
  | nil => intro pm; exact ⟨rfl, rfl, rfl⟩
  | cons e rest ih =>
      intro pm
      rcases e with ⟨t, m⟩
      have hstep := processContentEntry_counts oa oCT oJB oSV pm t m
      have hrest := ih (processContentEntry oa oCT oJB oSV pm (t, m))
      simp only [List.foldl_cons]
      exact ⟨hrest.1.trans hstep.1, hrest.2.1.trans hstep.2.1,
        hrest.2.2.trans hstep.2.2.1⟩

/-- The header loop leaves the status-success, status-code and
response-time counts unchanged. -/
theorem headerFold_simple_counts (oa : OasMappedOperation)
    (oHP : Option ContractCheckSetting) (headerNames : List String) :
    ∀ pm : PostmanMappedOperation,
    countA isStatusSuccessA
        ((headerNames.foldl (processHeaderEntry oa oHP) pm).testAssertions)
        = countA isStatusSuccessA pm.testAssertions ∧
    countA isStatusCodeA
        ((headerNames.foldl (processHeaderEntry oa oHP) pm).testAssertions)
        = countA isStatusCodeA pm.testAssertions ∧
    countA isResponseTimeA
        ((headerNames.foldl (processHeaderEntry oa oHP) pm).testAssertions)
        = countA isResponseTimeA pm.testAssertions := by
  induction headerNames with
  | nil => intro pm; exact ⟨rfl, rfl, rfl⟩
  | cons h rest ih =>
      intro pm
      have hstep := processHeaderEntry_counts oa oHP pm h
      have hrest := ih (processHeaderEntry oa oHP pm h)
      simp only [List.foldl_cons]
      exact ⟨hrest.1.trans hstep.1, hrest.2.1.trans hstep.2.1,
        hrest.2.2.trans hstep.2.2⟩


theorem appendsOnly_processContentEntry (oa : OasMappedOperation)
    (oCT oJB oSV : Option ContractCheckSetting)
    (pm : PostmanMappedOperation) (e : String × MediaTypeObject) :
    appendsOnly pm (processContentEntry oa oCT oJB oSV pm e) := by
  rcases e with ⟨t, m⟩
  rcases pm with ⟨pid, pname, ppath, passerts⟩
  rcases oCT with _ | oCT <;> rcases oJB with _ | oJB <;> rcases oSV with _ | oSV <;>
    rcases m with ⟨_ | msch⟩ <;>
    simp only [processContentEntry, testResponseContentType, testResponseJsonBody,
      testResponseJsonSchema, appendAssertion, inOperations_mk] <;>
    repeat' split
  all_goals exact ⟨rfl, rfl, rfl, _, by simp; rfl⟩

theorem appendsOnly_processHeaderEntry (oa : OasMappedOperation)
    (oHP : Option ContractCheckSetting) (pm : PostmanMappedOperation)
    (h : String) :
    appendsOnly pm (processHeaderEntry oa oHP pm h) := by
  rcases pm with ⟨pid, pname, ppath, passerts⟩
  rcases oHP with _ | oHP <;>
    simp only [processHeaderEntry, testResponseHeader, appendAssertion,
      inOperations_mk] <;>
    repeat' split
  all_goals exact ⟨rfl, rfl, rfl, _, by simp; rfl⟩

theorem appendsOnly_foldl {α : Type}
    (f : PostmanMappedOperation → α → PostmanMappedOperation)
    (hf : ∀ pm a, appendsOnly pm (f pm a)) (l : List α) :
    ∀ pm, appendsOnly pm (l.foldl f pm) := by
  induction l with
  | nil => intro pm; exact appendsOnly_refl pm
  | cons a rest ih =>
      intro pm
      exact appendsOnly_trans (hf pm a) (ih (f pm a))

/-- Core predicted increment of a single enabled-and-not-excluded check. -/
def checkIncr (opt : Option ContractCheckSetting)
    (pm : PostmanMappedOperation) : Nat :=
  match opt with
  | some o => if inOperations pm o.excludeForOperations then 0 else 1
  | none => 0

theorem checkIncr_congr {pm pm' : PostmanMappedOperation}
    (hid : pm'.id = pm.id) (hpath : pm'.pathRef = pm.pathRef)
    (opt : Option ContractCheckSetting) :
    checkIncr opt pm' = checkIncr opt pm := by
  cases opt with
  | none => rfl
  | some o =>
      show (if inOperations pm' o.excludeForOperations then 0 else 1)
        = (if inOperations pm o.excludeForOperations then 0 else 1)
      rw [inOperations_congr hid hpath]

theorem applyStatusSuccess_counts (opt : Option ContractCheckSetting)
    (pm : PostmanMappedOperation) :
    countA isStatusSuccessA (applyStatusSuccess opt pm).testAssertions
        = countA isStatusSuccessA pm.testAssertions + checkIncr opt pm ∧
    countA isStatusCodeA (applyStatusSuccess opt pm).testAssertions
        = countA isStatusCodeA pm.testAssertions ∧
    countA isResponseTimeA (applyStatusSuccess opt pm).testAssertions
        = countA isResponseTimeA pm.testAssertions ∧
    appendsOnly pm (applyStatusSuccess opt pm) := by
  rcases opt with _ | o <;>
    simp only [applyStatusSuccess, checkIncr, testResponseStatusSuccess,
      appendAssertion] <;>
    repeat' split
  all_goals
    refine ⟨?_, ?_, ?_, ?_⟩ <;>
      first
      | exact appendsOnly_refl _
      | exact ⟨rfl, rfl, rfl, _, by simp; rfl⟩
      | simp [countA, isStatusSuccessA, isStatusCodeA, isResponseTimeA,
          List.filter_append]

theorem applyStatusCode_counts (opt : Option ContractCheckSetting)
    (pm : PostmanMappedOperation) :
    countA isStatusCodeA (applyStatusCode opt pm).testAssertions
        = countA isStatusCodeA pm.testAssertions + checkIncr opt pm ∧
    countA isStatusSuccessA (applyStatusCode opt pm).testAssertions
        = countA isStatusSuccessA pm.testAssertions ∧
    countA isResponseTimeA (applyStatusCode opt pm).testAssertions
        = countA isResponseTimeA pm.testAssertions ∧
    appendsOnly pm (applyStatusCode opt pm) := by
  rcases opt with _ | o <;>
    simp only [applyStatusCode, checkIncr, testResponseStatusCode,
      appendAssertion] <;>
    repeat' split
  all_goals
    refine ⟨?_, ?_, ?_, ?_⟩ <;>
      first
      | exact appendsOnly_refl _
      | exact ⟨rfl, rfl, rfl, _, by simp; rfl⟩
      | simp [countA, isStatusSuccessA, isStatusCodeA, isResponseTimeA,
          List.filter_append]

theorem applyResponseTime_counts (opt : Option ContractCheckSetting)
    (pm : PostmanMappedOperation) :
    countA isResponseTimeA (applyResponseTime opt pm).testAssertions
        = countA isResponseTimeA pm.testAssertions + checkIncr opt pm ∧
    countA isStatusSuccessA (applyResponseTime opt pm).testAssertions
        = countA isStatusSuccessA pm.testAssertions ∧
    countA isStatusCodeA (applyResponseTime opt pm).testAssertions
        = countA isStatusCodeA pm.testAssertions ∧
    appendsOnly pm (applyResponseTime opt pm) := by
  rcases opt with _ | o <;>
    simp only [applyResponseTime, checkIncr, testResponseTime,
      appendAssertion] <;>
    repeat' split
  all_goals
    refine ⟨?_, ?_, ?_, ?_⟩ <;>
      first
      | exact appendsOnly_refl _
      | exact ⟨rfl, rfl, rfl, _, by simp; rfl⟩
      | simp [countA, isStatusSuccessA, isStatusCodeA, isResponseTimeA,
          List.filter_append]

theorem applyContentChecks_simple (oa : OasMappedOperation)
    (oCT oJB oSV : Option ContractCheckSetting)
    (content : Option (List (String × MediaTypeObject)))
    (pm : PostmanMappedOperation) :
    countA isStatusSuccessA (applyContentChecks oa oCT oJB oSV content pm).testAssertions
        = countA isStatusSuccessA pm.testAssertions ∧
    countA isStatusCodeA (applyContentChecks oa oCT oJB oSV content pm).testAssertions
        = countA isStatusCodeA pm.testAssertions ∧
    countA isResponseTimeA (applyContentChecks oa oCT oJB oSV content pm).testAssertions
        = countA isResponseTimeA pm.testAssertions ∧
    appendsOnly pm (applyContentChecks oa oCT oJB oSV content pm) := by
  rcases content with _ | entries
  · exact ⟨rfl, rfl, rfl, appendsOnly_refl pm⟩
  · have h := contentFold_simple_counts oa oCT oJB oSV entries pm
    exact ⟨h.1, h.2.1, h.2.2,
      appendsOnly_foldl _ (fun q e => appendsOnly_processContentEntry oa oCT oJB oSV q e)
        entries pm⟩

theorem applyHeaderChecks_simple (oa : OasMappedOperation)
    (oHP : Option ContractCheckSetting) (headers : Option (List String))
    (pm : PostmanMappedOperation) :
    countA isStatusSuccessA (applyHeaderChecks oa oHP headers pm).testAssertions
        = countA isStatusSuccessA pm.testAssertions ∧
    countA isStatusCodeA (applyHeaderChecks oa oHP headers pm).testAssertions
        = countA isStatusCodeA pm.testAssertions ∧
    countA isResponseTimeA (applyHeaderChecks oa oHP headers pm).testAssertions
        = countA isResponseTimeA pm.testAssertions ∧
    appendsOnly pm (applyHeaderChecks oa oHP headers pm) := by
  rcases headers with _ | headerNames
  · exact ⟨rfl, rfl, rfl, appendsOnly_refl pm⟩
  · have h := headerFold_simple_counts oa oHP headerNames pm
    exact ⟨h.1, h.2.1, h.2.2,
      appendsOnly_foldl _ (fun q e => appendsOnly_processHeaderEntry oa oHP q e)
        headerNames pm⟩

theorem getTestType_statusSuccess (ct : ContractTestConfig) :
    getTestTypeFromContractTests ct "statusSuccess" = ct.statusSuccess := rfl

theorem getTestType_statusCode (ct : ContractTestConfig) :
    getTestTypeFromContractTests ct "statusCode" = ct.statusCode := rfl

theorem getTestType_responseTime (ct : ContractTestConfig) :
    getTestTypeFromContractTests ct "responseTime" = ct.responseTime := rfl

theorem getTestType_contentType (ct : ContractTestConfig) :
    getTestTypeFromContractTests ct "contentType" = ct.contentType := rfl

theorem getTestType_jsonBody (ct : ContractTestConfig) :
    getTestTypeFromContractTests ct "jsonBody" = ct.jsonBody := rfl

theorem getTestType_schemaValidation (ct : ContractTestConfig) :
    getTestTypeFromContractTests ct "schemaValidation" = ct.schemaValidation := rfl

theorem getTestType_headersPresent (ct : ContractTestConfig) :
    getTestTypeFromContractTests ct "headersPresent" = ct.headersPresent := rfl

/-- Predicted per-response increment for a content-independent check kind:
one when the response is in the success range, the check is enabled and the
record is not excluded for it; zero otherwise. -/
def simpleRespIncr (opt : Option ContractCheckSetting)
    (pm : PostmanMappedOperation) (code : String) : Nat :=
  if inRange (jsParseInt code) 200 302 then checkIncr opt pm else 0

theorem processResponse_simple_counts (oa : OasMappedOperation)
    (ct : ContractTestConfig) (pm : PostmanMappedOperation)
    (code : String) (resp : ResponseObject) :
    countA isStatusSuccessA (processResponse oa ct pm (code, resp)).testAssertions
        = countA isStatusSuccessA pm.testAssertions + simpleRespIncr ct.statusSuccess pm code ∧
    countA isStatusCodeA (processResponse oa ct pm (code, resp)).testAssertions
        = countA isStatusCodeA pm.testAssertions + simpleRespIncr ct.statusCode pm code ∧
    countA isResponseTimeA (processResponse oa ct pm (code, resp)).testAssertions
        = countA isResponseTimeA pm.testAssertions + simpleRespIncr ct.responseTime pm code ∧
    appendsOnly pm (processResponse oa ct pm (code, resp)) := by
  simp only [processResponse, simpleRespIncr, getTestType_statusSuccess,
    getTestType_statusCode, getTestType_responseTime, getTestType_contentType,
    getTestType_jsonBody, getTestType_schemaValidation, getTestType_headersPresent]
  cases hr : inRange (jsParseInt code) 200 302 with
  | false =>
      simp only [hr, Bool.not_false, if_true]
      exact ⟨by simp, by simp, by simp, appendsOnly_refl pm⟩
  | true =>
      simp only [hr, Bool.not_true, Bool.false_eq_true, if_false, if_true]
      have h1 := applyStatusSuccess_counts ct.statusSuccess pm
      have a1 := h1.2.2.2
      have h2 := applyStatusCode_counts ct.statusCode
        (applyStatusSuccess ct.statusSuccess pm)
      have a2 := h2.2.2.2
      have t2 := appendsOnly_trans a1 a2
      have h3 := applyResponseTime_counts ct.responseTime
        (applyStatusCode ct.statusCode (applyStatusSuccess ct.statusSuccess pm))
      have a3 := h3.2.2.2
      have t3 := appendsOnly_trans t2 a3
      have h4 := applyContentChecks_simple oa ct.contentType ct.jsonBody
        ct.schemaValidation resp.content
        (applyResponseTime ct.responseTime
          (applyStatusCode ct.statusCode (applyStatusSuccess ct.statusSuccess pm)))
      have a4 := h4.2.2.2
      have t4 := appendsOnly_trans t3 a4
      have h5 := applyHeaderChecks_simple oa ct.headersPresent resp.headers
        (applyContentChecks oa ct.contentType ct.jsonBody ct.schemaValidation
          resp.content
          (applyResponseTime ct.responseTime
            (applyStatusCode ct.statusCode (applyStatusSuccess ct.statusSuccess pm))))
      have a5 := h5.2.2.2
      have t5 := appendsOnly_trans t4 a5
      have hc2 : checkIncr ct.statusCode (applyStatusSuccess ct.statusSuccess pm)
          = checkIncr ct.statusCode pm :=
        checkIncr_congr a1.1 a1.2.2.1 ct.statusCode
      have hc3 : checkIncr ct.responseTime
            (applyStatusCode ct.statusCode (applyStatusSuccess ct.statusSuccess pm))
          = checkIncr ct.responseTime pm :=
        checkIncr_congr t2.1 t2.2.2.1 ct.responseTime
      refine ⟨?_, ?_, ?_, t5⟩
      · have e5 := h5.1
        have e4 := h4.1
        have e3 := h3.2.1
        have e2 := h2.2.1
        have e1 := h1.1
        omega
      · have e5 := h5.2.1
        have e4 := h4.2.1
        have e3 := h3.2.2.1
        have e2 := h2.1
        have e1 := h1.2.1
        omega
      · have e5 := h5.2.2.1
        have e4 := h4.2.2.1
        have e3 := h3.1
        have e2 := h2.2.2.1
        have e1 := h1.2.2.1
        omega

/-- Sum of the predicted per-response increments over a response list. -/
def sumSimpleIncr (opt : Option ContractCheckSetting)
    (pm : PostmanMappedOperation)
    (responses : List (String × ResponseObject)) : Nat :=
  (responses.map (fun e => simpleRespIncr opt pm e.1)).sum

theorem sumSimpleIncr_congr {pm pm' : PostmanMappedOperation}
    (hid : pm'.id = pm.id) (hpath : pm'.pathRef = pm.pathRef)
    (opt : Option ContractCheckSetting)
    (responses : List (String × ResponseObject)) :
    sumSimpleIncr opt pm' responses = sumSimpleIncr opt pm responses := by
  unfold sumSimpleIncr simpleRespIncr
  induction responses with
  | nil => rfl
  | cons e rest ih =>
      simp only [List.map_cons, List.sum_cons, ih, checkIncr_congr hid hpath]

theorem responsesFold_simple_counts (oa : OasMappedOperation)
    (ct : ContractTestConfig) (responses : List (String × ResponseObject)) :
    ∀ pm : PostmanMappedOperation,
    countA isStatusSuccessA
        ((responses.foldl (processResponse oa ct) pm).testAssertions)
        = countA isStatusSuccessA pm.testAssertions
          + sumSimpleIncr ct.statusSuccess pm responses ∧
    countA isStatusCodeA
        ((responses.foldl (processResponse oa ct) pm).testAssertions)
        = countA isStatusCodeA pm.testAssertions
          + sumSimpleIncr ct.statusCode pm responses ∧
    countA isResponseTimeA
        ((responses.foldl (processResponse oa ct) pm).testAssertions)
        = countA isResponseTimeA pm.testAssertions
          + sumSimpleIncr ct.responseTime pm responses ∧
    appendsOnly pm (responses.foldl (processResponse oa ct) pm) := by
  induction responses with
  | nil =>
      intro pm
      exact ⟨by simp [sumSimpleIncr], by simp [sumSimpleIncr],
        by simp [sumSimpleIncr], appendsOnly_refl pm⟩
  | cons e rest ih =>
      intro pm
      rcases e with ⟨code, resp⟩
      have hstep := processResponse_simple_counts oa ct pm code resp
      have astep := hstep.2.2.2
      have hrest := ih (processResponse oa ct pm (code, resp))
      have hsum : ∀ opt, sumSimpleIncr opt (processResponse oa ct pm (code, resp)) rest
          = sumSimpleIncr opt pm rest :=
        fun opt => sumSimpleIncr_congr astep.1 astep.2.2.1 opt rest
      refine ⟨?_, ?_, ?_, appendsOnly_trans astep hrest.2.2.2⟩
      · have h1 := hrest.1
        rw [hsum ct.statusSuccess] at h1
        have h2 := hstep.1
        simp only [List.foldl_cons, sumSimpleIncr, List.map_cons, List.sum_cons]
        simp only [sumSimpleIncr] at h1
        omega
      · have h1 := hrest.2.1
        rw [hsum ct.statusCode] at h1
        have h2 := hstep.2.1
        simp only [List.foldl_cons, sumSimpleIncr, List.map_cons, List.sum_cons]
        simp only [sumSimpleIncr] at h1
        omega
      · have h1 := hrest.2.2.1
        rw [hsum ct.responseTime] at h1
        have h2 := hstep.2.2.1
        simp only [List.foldl_cons, sumSimpleIncr, List.map_cons, List.sum_cons]
        simp only [sumSimpleIncr] at h1
        omega

/-- Exact effect of `injectContractTests` on the three content-independent
kind counts, together with append-only growth of the assertion list. -/
theorem injectContractTests_simple_counts (pm : PostmanMappedOperation)
    (oa : OasMappedOperation) (ct : ContractTestConfig)
    (responses : List (String × ResponseObject))
    (hresp : oa.schema.bind (fun s => s.responses) = some responses) :
    countA isStatusSuccessA (injectContractTests pm oa ct).testAssertions
        = countA isStatusSuccessA pm.testAssertions
          + sumSimpleIncr ct.statusSuccess pm responses ∧
    countA isStatusCodeA (injectContractTests pm oa ct).testAssertions
        = countA isStatusCodeA pm.testAssertions
          + sumSimpleIncr ct.statusCode pm responses ∧
    countA isResponseTimeA (injectContractTests pm oa ct).testAssertions
        = countA isResponseTimeA pm.testAssertions
          + sumSimpleIncr ct.responseTime pm responses ∧
    appendsOnly pm (injectContractTests pm oa ct) := by
  unfold injectContractTests
  rw [hresp]
  exact responsesFold_simple_counts oa ct responses pm

theorem sumSimpleIncr_not_excluded (o : ContractCheckSetting)
    (pm : PostmanMappedOperation)
    (hexcl : inOperations pm o.excludeForOperations = false)
    (responses : List (String × ResponseObject)) :
    sumSimpleIncr (some o) pm responses
      = (responses.filter (fun e => inRange (jsParseInt e.1) 200 302)).length := by
  induction responses with
  | nil => rfl
  | cons e rest ih =>
      have hstep : simpleRespIncr (some o) pm e.1
          = if inRange (jsParseInt e.1) 200 302 then 1 else 0 := by
        simp [simpleRespIncr, checkIncr, hexcl]
      cases hr : inRange (jsParseInt e.1) 200 302 <;>
        simp only [sumSimpleIncr, List.map_cons, List.sum_cons, List.filter_cons,
          hr, hstep, if_true, if_false] <;>
        simp only [sumSimpleIncr] at ih <;>
        (simp [ih, hr]; try omega)

theorem sumSimpleIncr_excluded (o : ContractCheckSetting)
    (pm : PostmanMappedOperation)
    (hexcl : inOperations pm o.excludeForOperations = true)
    (responses : List (String × ResponseObject)) :
    sumSimpleIncr (some o) pm responses = 0 := by
  induction responses with
  | nil => rfl
  | cons e rest ih =>
      have hstep : simpleRespIncr (some o) pm e.1 = 0 := by
        simp [simpleRespIncr, checkIncr, hexcl]
      simp only [sumSimpleIncr, List.map_cons, List.sum_cons, hstep] at *
      simpa using ih

theorem sumSimpleIncr_disabled (pm : PostmanMappedOperation)
    (responses : List (String × ResponseObject)) :
    sumSimpleIncr none pm responses = 0 := by
  induction responses with
  | nil => rfl
  | cons e rest ih =>
      have hstep : simpleRespIncr none pm e.1 = 0 := by
        simp [simpleRespIncr, checkIncr]
      simp only [sumSimpleIncr, List.map_cons, List.sum_cons, hstep] at *
      simpa using ih

/-- C1: for every contract operation with declared responses and every
contract-test rule that enables the status-success check with no exclusion
applying to the Request Record, `injectContractTests` appends exactly one
status-success assertion per declared response whose status code lies in
[200, 302), and assertions accumulate across all such responses: the input
record's assertions remain as a prefix, later responses add to (never
replace) the assertions of earlier ones. -/
theorem injectContractTests_statusSuccess_per_eligible_response
    (pm : PostmanMappedOperation) (oa : OasMappedOperation)
    (ct : ContractTestConfig) (o : ContractCheckSetting)
    (responses : List (String × ResponseObject))
    (hresp : oa.schema.bind (fun s => s.responses) = some responses)
    (hss : ct.statusSuccess = some o)
    (hexcl : inOperations pm o.excludeForOperations = false) :
    countA isStatusSuccessA (injectContractTests pm oa ct).testAssertions
        = countA isStatusSuccessA pm.testAssertions
          + (responses.filter (fun e => inRange (jsParseInt e.1) 200 302)).length ∧
    ∃ l, (injectContractTests pm oa ct).testAssertions = pm.testAssertions ++ l := by
  have h := injectContractTests_simple_counts pm oa ct responses hresp
  refine ⟨?_, h.2.2.2.2.2.2⟩
  rw [h.1, hss, sumSimpleIncr_not_excluded o pm hexcl responses]

/-- Witness for C1: one operation with responses 200, 404, 301 and an
enabled status-success check; exactly two responses are in range, so
exactly two status-success assertions are appended to the initially
assertion-free record. -/
theorem injectContractTests_statusSuccess_per_eligible_response_witness :
    countA isStatusSuccessA
        (injectContractTests
          ⟨some "op1", "op one", "/pets", []⟩
          ⟨some ⟨some [("200", ⟨some [("application/json", ⟨some "S"⟩)], some ["x-h"]⟩),
                       ("404", ⟨none, none⟩),
                       ("301", ⟨none, none⟩)]⟩⟩
          { statusSuccess := some ⟨none⟩ }).testAssertions
        = 2 ∧
    ∃ l, (injectContractTests
          ⟨some "op1", "op one", "/pets", []⟩
          ⟨some ⟨some [("200", ⟨some [("application/json", ⟨some "S"⟩)], some ["x-h"]⟩),
                       ("404", ⟨none, none⟩),
                       ("301", ⟨none, none⟩)]⟩⟩
          { statusSuccess := some ⟨none⟩ }).testAssertions
        = ([] : List TestAssertion) ++ l := by
  have h := injectContractTests_statusSuccess_per_eligible_response
    ⟨some "op1", "op one", "/pets", []⟩
    ⟨some ⟨some [("200", ⟨some [("application/json", ⟨some "S"⟩)], some ["x-h"]⟩),
                 ("404", ⟨none, none⟩),
                 ("301", ⟨none, none⟩)]⟩⟩
    { statusSuccess := some ⟨none⟩ } ⟨none⟩
    [("200", ⟨some [("application/json", ⟨some "S"⟩)], some ["x-h"]⟩),
     ("404", ⟨none, none⟩),
     ("301", ⟨none, none⟩)]
    rfl rfl (by decide)
  constructor
  · rw [h.1]
    decide
  · exact h.2

/-- C2: a declared response whose status code parses outside the
inclusive-exclusive range [200, 302) contributes no contract-test assertion
of any kind, regardless of which check kinds the rule enables: the response
iteration returns the record untouched, and an operation holding only that
response is a no-op for `injectContractTests`. -/
theorem processResponse_out_of_range_no_assertions
    (oa : OasMappedOperation) (ct : ContractTestConfig)
    (pm : PostmanMappedOperation) (code : String) (resp : ResponseObject)
    (h : inRange (jsParseInt code) 200 302 = false) :
    processResponse oa ct pm (code, resp) = pm ∧
    ∀ sch : OasOperationSchema, sch.responses = some [(code, resp)] →
      injectContractTests pm ⟨some sch⟩ ct = pm := by
  have hone : processResponse oa ct pm (code, resp) = pm := by
    unfold processResponse
    simp [h]
  refine ⟨hone, ?_⟩
  intro sch hs
  unfold injectContractTests
  simp only [Option.some_bind, hs, List.foldl_cons, List.foldl_nil]
  unfold processResponse
  simp [h]

/-- Witness for C2: a 404 response with full content and headers and a rule
enabling every check kind injects nothing. -/
theorem processResponse_out_of_range_no_assertions_witness :
    processResponse ⟨some ⟨some []⟩⟩
        { statusSuccess := some ⟨none⟩, statusCode := some ⟨none⟩,
          responseTime := some ⟨none⟩, contentType := some ⟨none⟩,
          jsonBody := some ⟨none⟩, schemaValidation := some ⟨none⟩,
          headersPresent := some ⟨none⟩ }
        ⟨some "op1", "op one", "/pets", []⟩
        ("404", ⟨some [("application/json", ⟨some "S"⟩)], some ["x-h"]⟩)
        = ⟨some "op1", "op one", "/pets", []⟩ ∧
    injectContractTests ⟨some "op1", "op one", "/pets", []⟩
        ⟨some ⟨some [("404", ⟨some [("application/json", ⟨some "S"⟩)], some ["x-h"]⟩)]⟩⟩
        { statusSuccess := some ⟨none⟩, statusCode := some ⟨none⟩,
          responseTime := some ⟨none⟩, contentType := some ⟨none⟩,
          jsonBody := some ⟨none⟩, schemaValidation := some ⟨none⟩,
          headersPresent := some ⟨none⟩ }
        = ⟨some "op1", "op one", "/pets", []⟩ := by
  have h := processResponse_out_of_range_no_assertions
    ⟨some ⟨some []⟩⟩
    { statusSuccess := some ⟨none⟩, statusCode := some ⟨none⟩,
      responseTime := some ⟨none⟩, contentType := some ⟨none⟩,
      jsonBody := some ⟨none⟩, schemaValidation := some ⟨none⟩,
      headersPresent := some ⟨none⟩ }
    ⟨some "op1", "op one", "/pets", []⟩
    "404" ⟨some [("application/json", ⟨some "S"⟩)], some ["x-h"]⟩
    (by decide)
  exact ⟨h.1, h.2 ⟨some [("404", ⟨some [("application/json", ⟨some "S"⟩)], some ["x-h"]⟩)]⟩ rfl⟩

/-- C6: for every Request Record and every contract operation whose schema
declares no responses (no schema at all, or a schema without a `responses`
mapping), `injectContractTests` returns the input record unchanged — a
silent no-op, not an error. -/
theorem injectContractTests_no_responses_noop (pm : PostmanMappedOperation)
    (oa : OasMappedOperation) (ct : ContractTestConfig)
    (h : oa.schema.bind (fun s => s.responses) = none) :
    injectContractTests pm oa ct = pm := by
  unfold injectContractTests
  rw [h]

/-- Witness for C6: both shapes of "no responses declared" return the
record unchanged even with every check enabled. -/
theorem injectContractTests_no_responses_noop_witness :
    injectContractTests ⟨some "op1", "op one", "/pets", []⟩ ⟨none⟩
        { statusSuccess := some ⟨none⟩, statusCode := some ⟨none⟩ }
        = ⟨some "op1", "op one", "/pets", []⟩ ∧
    injectContractTests ⟨some "op1", "op one", "/pets", []⟩ ⟨some ⟨none⟩⟩
        { statusSuccess := some ⟨none⟩, statusCode := some ⟨none⟩ }
        = ⟨some "op1", "op one", "/pets", []⟩ :=
  ⟨injectContractTests_no_responses_noop _ _ _ rfl,
   injectContractTests_no_responses_noop _ _ _ rfl⟩

/-- C5 (amended): within `injectContractTests`, for every eligible response
the content-type check fires exactly once per declared content-type entry
with a non-empty (truthy) media-type name when enabled and not excluded —
entries with an empty media-type name are skipped entirely; the
JSON-body-equality check fires only for entries whose media type is exactly
`application/json`; and the schema-validation check fires only for entries
that declare a schema.  The exact increments are `ctEntryIncr`,
`jbEntryIncr` and `svEntryIncr`. -/
theorem processContentEntry_check_firing (oa : OasMappedOperation)
    (oCT oJB oSV : Option ContractCheckSetting)
    (pm : PostmanMappedOperation) (t : String) (m : MediaTypeObject) :
    countA isContentTypeA (processContentEntry oa oCT oJB oSV pm (t, m)).testAssertions
        = countA isContentTypeA pm.testAssertions + ctEntryIncr oCT pm t ∧
    countA isJsonBodyA (processContentEntry oa oCT oJB oSV pm (t, m)).testAssertions
        = countA isJsonBodyA pm.testAssertions + jbEntryIncr oJB pm t ∧
    countA isJsonSchemaA (processContentEntry oa oCT oJB oSV pm (t, m)).testAssertions
        = countA isJsonSchemaA pm.testAssertions + svEntryIncr oSV pm t m := by
  have h := processContentEntry_counts oa oCT oJB oSV pm t m
  exact ⟨h.2.2.2.1, h.2.2.2.2.1, h.2.2.2.2.2⟩

/-- Counterexample to C5 as stated: a 200 response declaring exactly one
content-type entry whose media-type name is the empty string, under a rule
enabling the content-type and schema-validation checks with no exclusions,
receives zero assertions of any kind — `TestSuite.ts` line 202
(`if (!contentType) continue`) skips falsy content-type names, while the
claim requires the content-type check to fire once per declared entry. -/
theorem processContentEntry_empty_name_counterexample :
    injectContractTests ⟨some "op1", "op one", "/pets", []⟩
        ⟨some ⟨some [("200", ⟨some [("", ⟨some "S"⟩)], none⟩)]⟩⟩
        { contentType := some ⟨none⟩, schemaValidation := some ⟨none⟩ }
        = ⟨some "op1", "op one", "/pets", []⟩ := by decide

/-- C4: per-check-kind exclusion lists are evaluated independently.  For a
rule enabling status-success, status-code and response-time where the
status-success entry's exclusion list covers the Request Record while the
other two entries' lists do not, `injectContractTests` appends zero
status-success assertions to that record yet still appends one status-code
and one response-time assertion per eligible response; and a second Request
Record not covered by the status-success exclusion still receives one
status-success assertion per eligible response in the same batch. -/
theorem injectContractTests_exclusions_per_kind
    (pm pm2 : PostmanMappedOperation) (oa : OasMappedOperation)
    (ct : ContractTestConfig) (oSS oSC oRT : ContractCheckSetting)
    (responses : List (String × ResponseObject))
    (hresp : oa.schema.bind (fun s => s.responses) = some responses)
    (hss : ct.statusSuccess = some oSS)
    (hsc : ct.statusCode = some oSC)
    (hrt : ct.responseTime = some oRT)
    (hx : inOperations pm oSS.excludeForOperations = true)
    (hnx1 : inOperations pm oSC.excludeForOperations = false)
    (hnx2 : inOperations pm oRT.excludeForOperations = false)
    (hp2 : inOperations pm2 oSS.excludeForOperations = false) :
    countA isStatusSuccessA (injectContractTests pm oa ct).testAssertions
        = countA isStatusSuccessA pm.testAssertions ∧
    countA isStatusCodeA (injectContractTests pm oa ct).testAssertions
        = countA isStatusCodeA pm.testAssertions
          + (responses.filter (fun e => inRange (jsParseInt e.1) 200 302)).length ∧
    countA isResponseTimeA (injectContractTests pm oa ct).testAssertions
        = countA isResponseTimeA pm.testAssertions
          + (responses.filter (fun e => inRange (jsParseInt e.1) 200 302)).length ∧
    countA isStatusSuccessA (injectContractTests pm2 oa ct).testAssertions
        = countA isStatusSuccessA pm2.testAssertions
          + (responses.filter (fun e => inRange (jsParseInt e.1) 200 302)).length := by
  have h := injectContractTests_simple_counts pm oa ct responses hresp
  have h2 := injectContractTests_simple_counts pm2 oa ct responses hresp
  refine ⟨?_, ?_, ?_, ?_⟩
  · rw [h.1, hss, sumSimpleIncr_excluded oSS pm hx responses]
    omega
  · rw [h.2.1, hsc, sumSimpleIncr_not_excluded oSC pm hnx1 responses]

  · rw [h.2.2.1, hrt, sumSimpleIncr_not_excluded oRT pm hnx2 responses]
  · rw [h2.1, hss, sumSimpleIncr_not_excluded oSS pm2 hp2 responses]

/-- Witness for C4: record `opA` is excluded for status-success only; on a
single 200 response it gains zero status-success but one status-code and
one response-time assertion, while record `opB` gains the status-success
assertion. -/
theorem injectContractTests_exclusions_per_kind_witness :
    countA isStatusSuccessA
        (injectContractTests ⟨some "opA", "A", "/a", []⟩
          ⟨some ⟨some [("200", ⟨none, none⟩)]⟩⟩
          { statusSuccess := some ⟨some ["opA"]⟩, statusCode := some ⟨none⟩,
            responseTime := some ⟨none⟩ }).testAssertions = 0 ∧
    countA isStatusCodeA
        (injectContractTests ⟨some "opA", "A", "/a", []⟩
          ⟨some ⟨some [("200", ⟨none, none⟩)]⟩⟩
          { statusSuccess := some ⟨some ["opA"]⟩, statusCode := some ⟨none⟩,
            responseTime := some ⟨none⟩ }).testAssertions = 1 ∧
    countA isResponseTimeA
        (injectContractTests ⟨some "opA", "A", "/a", []⟩
          ⟨some ⟨some [("200", ⟨none, none⟩)]⟩⟩
          { statusSuccess := some ⟨some ["opA"]⟩, statusCode := some ⟨none⟩,
            responseTime := some ⟨none⟩ }).testAssertions = 1 ∧
    countA isStatusSuccessA
        (injectContractTests ⟨some "opB", "B", "/b", []⟩
          ⟨some ⟨some [("200", ⟨none, none⟩)]⟩⟩
          { statusSuccess := some ⟨some ["opA"]⟩, statusCode := some ⟨none⟩,
            responseTime := some ⟨none⟩ }).testAssertions = 1 := by
  have h := injectContractTests_exclusions_per_kind
    ⟨some "opA", "A", "/a", []⟩ ⟨some "opB", "B", "/b", []⟩
    ⟨some ⟨some [("200", ⟨none, none⟩)]⟩⟩
    { statusSuccess := some ⟨some ["opA"]⟩, statusCode := some ⟨none⟩,
      responseTime := some ⟨none⟩ }
    ⟨some ["opA"]⟩ ⟨none⟩ ⟨none⟩
    [("200", ⟨none, none⟩)]
    rfl rfl rfl rfl (by decide) (by decide) (by decide) (by decide)
  refine ⟨?_, ?_, ?_, ?_⟩
  · rw [h.1]; decide
  · rw [h.2.1]; decide
  · rw [h.2.2.1]; decide
  · rw [h.2.2.2]; decide

/-- C3: `getOperationsFromSetting` resolves target Request Records by the
explicit path reference when it is truthy (taking priority even when an
operation identifier is also present), else by the declared operation
identifier; when the setting carries neither, it returns the empty
sequence — and being a total function it never throws; when an exclusion
list is present, every Request Record whose identifier or path reference
appears in the list is filtered out of the result. -/
theorem getOperationsFromSetting_resolution_and_exclusion
    (parser : PostmanParserModel) (s : RuleSetting) :
    (jsTruthyStr s.openApiOperation = false →
      jsTruthyStr s.openApiOperationId = false →
      getOperationsFromSetting parser s = []) ∧
    (∀ path, s.openApiOperation = some path → path ≠ "" →
      s.excludeForOperations = none →
      getOperationsFromSetting parser s = parser.getOperationsByPath path) ∧
    (∀ oid, jsTruthyStr s.openApiOperation = false →
      s.openApiOperationId = some oid → oid ≠ "" →
      s.excludeForOperations = none →
      getOperationsFromSetting parser s = parser.getOperationsByIds [oid]) ∧
    (∀ path excl, s.openApiOperation = some path → path ≠ "" →
      s.excludeForOperations = some excl →
      getOperationsFromSetting parser s
        = (parser.getOperationsByPath path).filter (fun pmOperation =>
            jsTruthyStr pmOperation.id &&
            !listIncludesOpt excl pmOperation.id &&
            !excl.contains pmOperation.pathRef)) ∧
    (∀ excl pmOperation, s.excludeForOperations = some excl →
      pmOperation ∈ getOperationsFromSetting parser s →
      listIncludesOpt excl pmOperation.id = false ∧
      excl.contains pmOperation.pathRef = false) := by
  refine ⟨?_, ?_, ?_, ?_, ?_⟩
  · intro h1 h2
    unfold getOperationsFromSetting
    simp only [h1, h2, Bool.false_eq_true, if_false]
    cases s.excludeForOperations <;> simp
  · intro path hs hne hex
    have ht : jsTruthyStr (some path) = true := by
      simpa [jsTruthyStr] using hne
    unfold getOperationsFromSetting
    simp only [hs, Option.getD_some, ht, if_true, hex]
  · intro oid h1 hs hne hex
    have ht : jsTruthyStr (some oid) = true := by
      simpa [jsTruthyStr] using hne
    unfold getOperationsFromSetting
    simp only [h1, Bool.false_eq_true, if_false, hs, Option.getD_some, ht,
      if_true, hex]
  · intro path excl hs hne hex
    have ht : jsTruthyStr (some path) = true := by
      simpa [jsTruthyStr] using hne
    unfold getOperationsFromSetting
    simp only [hs, Option.getD_some, ht, if_true, hex]
  · intro excl pmOperation hex hmem
    unfold getOperationsFromSetting at hmem
    simp only [hex] at hmem
    have hp := (List.mem_filter.mp hmem).2
    simp only [Bool.and_eq_true, Bool.not_eq_true'] at hp
    exact ⟨hp.1.2, hp.2⟩

/-- Witness for C3: a setting referencing path `/pets` (with an operation
identifier also present, ignored) and excluding `opX`; of the three
records the parser returns for `/pets`, `opX` is dropped by the exclusion,
the record without an identifier is dropped, and `opY` remains; its
identifier and path reference are indeed outside the exclusion list. -/
theorem getOperationsFromSetting_resolution_and_exclusion_witness :
    getOperationsFromSetting
        ⟨fun p => if p == "/pets" then
            [⟨some "opX", "x", "/pets", []⟩, ⟨some "opY", "y", "/pets", []⟩,
             ⟨none, "z", "/pets", []⟩] else [],
          fun _ => [], fun _ => none, []⟩
        ⟨some "/pets", some "ignoredId", some ["opX"]⟩
      = [⟨some "opY", "y", "/pets", []⟩] ∧
    listIncludesOpt ["opX"] (some "opY") = false ∧
    (["opX"].contains "/pets") = false := by
  have h := getOperationsFromSetting_resolution_and_exclusion
    ⟨fun p => if p == "/pets" then
        [⟨some "opX", "x", "/pets", []⟩, ⟨some "opY", "y", "/pets", []⟩,
         ⟨none, "z", "/pets", []⟩] else [],
      fun _ => [], fun _ => none, []⟩
    ⟨some "/pets", some "ignoredId", some ["opX"]⟩
  have h4 := h.2.2.2.1 "/pets" ["opX"] rfl (by decide) rfl
  have hres : getOperationsFromSetting
      ⟨fun p => if p == "/pets" then
          [⟨some "opX", "x", "/pets", []⟩, ⟨some "opY", "y", "/pets", []⟩,
           ⟨none, "z", "/pets", []⟩] else [],
        fun _ => [], fun _ => none, []⟩
      ⟨some "/pets", some "ignoredId", some ["opX"]⟩
      = [⟨some "opY", "y", "/pets", []⟩] := by
    rw [h4]; decide
  have h5 := h.2.2.2.2 ["opX"] ⟨some "opY", "y", "/pets", []⟩ rfl
    (by rw [hres]; decide)
  exact ⟨hres, h5.1, h5.2⟩

/-- C9: whenever a rule setting carries a non-empty `excludeForOperations`
list, `getOperationsFromSetting` additionally drops every resolved Request
Record whose identifier is missing or falsy — even when neither its
identifier nor its path reference appears in the exclusion list — so such
records receive no injection under that rule. -/
theorem getOperationsFromSetting_drops_falsy_id
    (parser : PostmanParserModel) (s : RuleSetting)
    (excl : List String) (pmOperation : PostmanMappedOperation)
    (hex : s.excludeForOperations = some excl) (_hne : excl ≠ [])
    (hid : jsTruthyStr pmOperation.id = false) :
    pmOperation ∉ getOperationsFromSetting parser s := by
  unfold getOperationsFromSetting
  simp only [hex]
  intro hmem
  have hp := (List.mem_filter.mp hmem).2
  rw [Bool.and_eq_true, Bool.and_eq_true] at hp
  rw [hid] at hp
  simp at hp

/-- Witness for C9: with exclusion list `["opA"]` (which mentions neither
the record's identifier nor its path), the record without an identifier is
still dropped from the resolution result. -/
theorem getOperationsFromSetting_drops_falsy_id_witness :
    (⟨none, "z", "/pets", []⟩ : PostmanMappedOperation) ∉
      getOperationsFromSetting
        ⟨fun _ => [⟨none, "z", "/pets", []⟩], fun _ => [], fun _ => none, []⟩
        ⟨some "/pets", none, some ["opA"]⟩ :=
  getOperationsFromSetting_drops_falsy_id _ _ ["opA"] _ rfl (by decide) (by decide)

/-- C10: when the TestSuite instance holds no content-test configuration,
`injectContentTests` returns the parser's mapped operations unchanged even
when a non-empty `contentTests` argument is supplied at the call site: the
caller-supplied argument is ignored and no response-body content test is
injected. -/
theorem injectContentTests_absent_config_noop (ts : TestSuiteModel)
    (pmOperationsArg : Option (List PostmanMappedOperation))
    (contentTestsArg : Option (List ContentTestConfig))
    (h : ts.contentTests = none) :
    injectContentTests ts pmOperationsArg contentTestsArg
      = ts.postmanParser.mappedOperations := by
  unfold injectContentTests
  rw [h]

/-- Witness for C10: a suite without content tests, called with a
non-empty content-test argument naming the suite's only operation, still
returns the mapped operations with no assertion added. -/
theorem injectContentTests_absent_config_noop_witness :
    injectContentTests
        ⟨⟨fun _ => [], fun _ => [], fun _ => none,
          [⟨some "op1", "one", "/pets", []⟩]⟩, none⟩
        (some [⟨some "op1", "one", "/pets", []⟩])
        (some [{ openApiOperation := some "/pets",
                 responseBodyTests := some ["check"] }])
      = [⟨some "op1", "one", "/pets", []⟩] :=
  injectContentTests_absent_config_noop _ _ _ rfl

/-- C7: in `IntegrationTestWriter.add`, a scenario step whose operation
identifier resolves to no Request Record is silently skipped (it also
consumes no `Math.random` draw), and processing of the remaining steps of
the same scenario continues unaffected — the scenario is never aborted:
the output equals that of the scenario without the unresolvable step. -/
theorem integrationAdd_skips_unresolvable_step
    (parser : PostmanParserModel)
    (oasLookup : String → Option OasMappedOperation)
    (inject : PostmanMappedOperation → Option OasMappedOperation →
      VariationConfig → PostmanMappedOperation)
    (nm : String) (pre post : List IntegrationOperation)
    (bad : IntegrationOperation) (rng : List String)
    (h : parser.getOperationById bad.openApiOperationId = none) :
    integrationAdd parser oasLookup inject ⟨nm, pre ++ bad :: post⟩ rng
      = integrationAdd parser oasLookup inject ⟨nm, pre ++ post⟩ rng := by
  have hb : ∀ acc, integrationAddStep parser oasLookup inject acc bad = acc := by
    intro acc
    unfold integrationAddStep
    rw [h]
  unfold integrationAdd
  simp only [List.foldl_append, List.foldl_cons, hb]

/-- Witness for C7: a three-step scenario whose middle step names the
unknown operation `missingOp` produces exactly the output of the two-step
scenario without it; the two resolvable sibling steps still produce their
clones. -/
theorem integrationAdd_skips_unresolvable_step_witness :
    integrationAdd
        ⟨fun _ => [], fun _ => [],
          fun i => if i == "createPet" then some ⟨some "createPet", "Create", "/pets", []⟩
            else if i == "getPet" then some ⟨some "getPet", "Get", "/pets/id", []⟩
            else none, []⟩
        (fun _ => none) (fun pm _ _ => pm)
        ⟨"scenario", [⟨"createPet", [⟨"validBody", none⟩]⟩,
                      ⟨"missingOp", [⟨"x", none⟩]⟩,
                      ⟨"getPet", [⟨"notFound", none⟩]⟩]⟩
        ["1", "2"]
      = integrationAdd
        ⟨fun _ => [], fun _ => [],
          fun i => if i == "createPet" then some ⟨some "createPet", "Create", "/pets", []⟩
            else if i == "getPet" then some ⟨some "getPet", "Get", "/pets/id", []⟩
            else none, []⟩
        (fun _ => none) (fun pm _ _ => pm)
        ⟨"scenario", [⟨"createPet", [⟨"validBody", none⟩]⟩,
                      ⟨"getPet", [⟨"notFound", none⟩]⟩]⟩
        ["1", "2"] ∧
    (integrationAdd
        ⟨fun _ => [], fun _ => [],
          fun i => if i == "createPet" then some ⟨some "createPet", "Create", "/pets", []⟩
            else if i == "getPet" then some ⟨some "getPet", "Get", "/pets/id", []⟩
            else none, []⟩
        (fun _ => none) (fun pm _ _ => pm)
        ⟨"scenario", [⟨"createPet", [⟨"validBody", none⟩]⟩,
                      ⟨"missingOp", [⟨"x", none⟩]⟩,
                      ⟨"getPet", [⟨"notFound", none⟩]⟩]⟩
        ["1", "2"]).map (fun r => r.name) = ["validBody", "notFound"] := by
  constructor
  · exact integrationAdd_skips_unresolvable_step
      ⟨fun _ => [], fun _ => [],
        fun i => if i == "createPet" then some ⟨some "createPet", "Create", "/pets", []⟩
          else if i == "getPet" then some ⟨some "getPet", "Get", "/pets/id", []⟩
          else none, []⟩
      (fun _ => none) (fun pm _ _ => pm) "scenario"
      [⟨"createPet", [⟨"validBody", none⟩]⟩]
      [⟨"getPet", [⟨"notFound", none⟩]⟩]
      ⟨"missingOp", [⟨"x", none⟩]⟩
      ["1", "2"] (by decide)
  · decide

/-- C8 evaluated on the code: with the `Math.random` oracle drawing `0.5`
twice, the two clones produced for variations named `v` in two steps of one
scenario both receive the identifier `v-0.5` — which also equals the
source Request Record's identifier.  The code builds clone identifiers as
`` `variationName-Math.random()` `` with no collision avoidance
(`IntegrationTestWriter.ts` line 44), so identifier distinctness is only
probabilistic, contradicting the claim that collisions never occur. -/
theorem integrationAdd_identifier_collision :
    (integrationAdd
        ⟨fun _ => [], fun _ => [],
          fun i => if i == "op1" then some ⟨some "v-0.5", "src", "/p", []⟩ else none,
          []⟩
        (fun _ => none) (fun pm _ _ => pm)
        ⟨"scenario", [⟨"op1", [⟨"v", none⟩]⟩, ⟨"op1", [⟨"v", none⟩]⟩]⟩
        ["0.5", "0.5"]).map (fun r => r.id)
      = [some "v-0.5", some "v-0.5"] := by decide
